import Mathlib

/-!
Shallow embedding of the rustgeojson core (src/src/lib.rs): the data model
(Record, County, Counties), construction from GeoJSON features, and the
point / record lookup operations, together with theorems settling the
specification claims. Floating-point coordinates are modelled as rationals;
the geo crate containment test, which is an external dependency, is modelled
from the specification (section 4.1) as a crossing-number test.
-/

namespace RustGeo

/-- A 2D point: axis0 (`x`, latitude-like) and axis1 (`y`, longitude-like).
Mirrors geo::Point<f64> with coordinates modelled as rationals. -/
structure Point where
  x : ℚ
  y : ℚ
deriving DecidableEq

/-- Modelled from the spec: the crossing test for one ring edge (a, b)
against the horizontal ray from p toward increasing axis1. The edge is
crossed when exactly one of a, b lies strictly above p on axis0 and the
linear interpolation at height p.x lies strictly beyond p on axis1.
The geo crate that implements this is not part of this repository. -/
def edgeCrosses (p a b : Point) : Bool :=
  (decide (a.x > p.x) != decide (b.x > p.x)) &&
  decide (a.y + (p.x - a.x) * (b.y - a.y) / (b.x - a.x) > p.y)

/-- Modelled from the spec: crossing-number containment in a single ring
(closure is implicit, the last point connects back to the first); the point
is inside iff the number of crossed edges is odd. -/
def ringContains (ring : List Point) (p : Point) : Bool :=
  (List.countP (fun ab => edgeCrosses p ab.1 ab.2) (ring.zip (ring.rotate 1))) % 2 == 1

/-- A polygon: one exterior ring plus hole rings, mirroring geo::Polygon. -/
structure Polygon where
  exterior : List Point
  holes : List (List Point)
deriving DecidableEq

/-- Modelled from the spec: a point is in the polygon iff it is inside the
exterior ring and inside none of the hole rings. -/
def Polygon.contains (poly : Polygon) (p : Point) : Bool :=
  ringContains poly.exterior p && poly.holes.all (fun h => !(ringContains h p))

/-- A CSV record: row index, testid, longitude, latitude (lib.rs, Record). -/
structure Record where
  index : Int
  testid : Int
  longitude : ℚ
  latitude : ℚ
deriving DecidableEq

/-- Returns a point with latitude and longitude, in that order
(lib.rs, Record::position). -/
def Record.position (r : Record) : Point :=
  ⟨r.latitude, r.longitude⟩

/-- Modelled from the spec: the shape of a parsed GeoJSON feature (its typed
definition lives in generated code outside src/): a name (the navn property)
and a nested coordinate array, an outer array of rings where each ring is an
ordered array of pairs in (axis1, axis0) = (longitude-like, latitude-like)
source order. Pair component 1 is coord[0], component 2 is coord[1]. -/
structure Feature where
  navn : String
  coordinates : List (List (ℚ × ℚ))
deriving DecidableEq

/-- Modelled from the spec: a parsed GeoJSON document as a feature list. -/
structure GeoJson where
  features : List Feature
deriving DecidableEq

/-- A named polygon (lib.rs, County). -/
structure County where
  name : String
  poly : Polygon
deriving DecidableEq

/-- Create a County from a Feature (lib.rs, County::new): take the first
coordinate array as the exterior ring, swapping each pair into
(axis0, axis1) order, with no hole rings. Indexing coordinates[0] on an
empty outer array panics in the source; that panic is modelled as none. -/
def County.new (feat : Feature) : Option County :=
  match feat.coordinates with
  | [] => none
  | ring0 :: _ =>
    some { name := feat.navn
           poly := { exterior := ring0.map (fun c => Point.mk c.2 c.1)
                     holes := [] } }

/-- Point lookup in one county (lib.rs, County::lookup). -/
def County.lookup (c : County) (p : Point) : Option String :=
  match Polygon.contains c.poly p with
  | true => some c.name
  | false => none

/-- Record lookup in one county (lib.rs, County::lookup_record). -/
def County.lookup_record (c : County) (r : Record) : Option (Int × String) :=
  match Polygon.contains c.poly (Record.position r) with
  | true => some (r.testid, c.name)
  | false => none

/-- The ordered index of counties (lib.rs, Counties). -/
structure Counties where
  list : List County
deriving DecidableEq

/-- The construction loop of Counties::new over the feature list; a panic in
any County::new aborts the whole construction (modelled as none). -/
def buildCounties : List Feature → Option (List County)
  | [] => some []
  | f :: fs =>
    match County.new f, buildCounties fs with
    | some c, some cs => some (c :: cs)
    | _, _ => none

/-- Create a Counties index from a GeoJson (lib.rs, Counties::new). -/
def Counties.new (json : GeoJson) : Option Counties :=
  (buildCounties json.features).map Counties.mk

/-- The scan loop of Counties::lookup: return the first positive lookup. -/
def lookupList (l : List County) (p : Point) : Option String :=
  match l with
  | [] => none
  | k :: rest =>
    match County.lookup k p with
    | some v => some v
    | none => lookupList rest p

/-- Point lookup over the index (lib.rs, Counties::lookup). -/
def Counties.lookup (cs : Counties) (p : Point) : Option String :=
  lookupList cs.list p

/-- The scan loop of Counties::lookup_record. -/
def lookupRecordList (l : List County) (r : Record) : Option (Int × String) :=
  match l with
  | [] => none
  | k :: rest =>
    match County.lookup_record k r with
    | some v => some v
    | none => lookupRecordList rest r

/-- Record lookup over the index (lib.rs, Counties::lookup_record). -/
def Counties.lookup_record (cs : Counties) (r : Record) : Option (Int × String) :=
  lookupRecordList cs.list r

/-- Batch point lookup (lib.rs, Counties::lookup_all). Rayon par_iter with
collect_into is an order-preserving parallel map over pure lookups; it is
modelled as the corresponding sequential map. -/
def Counties.lookup_all (cs : Counties) (p : List Point) : List (Option String) :=
  p.map (fun point => Counties.lookup cs point)

/-- Batch record lookup (lib.rs, Counties::lookup_all_records), modelled the
same way as lookup_all. -/
def Counties.lookup_all_records (cs : Counties) (p : List Record) :
    List (Option (Int × String)) :=
  p.map (fun rec => Counties.lookup_record cs rec)

/-- The square polygon of section 8 of the spec, with vertices
(0,0), (0,10), (10,10), (10,0) and no holes. -/
def squarePoly : Polygon :=
  ⟨[⟨0, 0⟩, ⟨0, 10⟩, ⟨10, 10⟩, ⟨10, 0⟩], []⟩

/-- A concrete county over the square polygon, used as test data. -/
def countyA : County := ⟨"A", squarePoly⟩

/-- A second concrete county over the same square polygon. -/
def countyB : County := ⟨"B", squarePoly⟩

unseal Rat.mul Rat.add Rat.sub Rat.inv Rat.ofScientific

/-- The scan loop of Counties::lookup returns the name of the first county
in list order whose containment test succeeds. -/
theorem lookupList_eq_find (l : List County) (p : Point) :
    lookupList l p =
      Option.map County.name (List.find? (fun k => Polygon.contains k.poly p) l) := by
  induction l with
  | nil => rfl
  | cons k rest ih =>
    simp only [lookupList, County.lookup]
    cases h : Polygon.contains k.poly p with
    | true => simp [List.find?_cons, h]
    | false => simp [List.find?_cons, h, ih]

/-- The record scan loop agrees with the point scan loop at the projected
point, pairing in the testid. -/
theorem lookupRecordList_eq (l : List County) (r : Record) :
    lookupRecordList l r =
      Option.map (fun name => (r.testid, name)) (lookupList l (Record.position r)) := by
  induction l with
  | nil => rfl
  | cons k rest ih =>
    simp only [lookupRecordList, lookupList, County.lookup_record, County.lookup]
    cases h : Polygon.contains k.poly (Record.position r) <;> simp [ih]

/-- C1: first-match-wins. Counties::lookup returns the name of the first
county in construction order whose containment test succeeds on p (the
find? characterisation); in particular, when A is listed before B and both
contain p, the result is the name of A. -/
theorem counties_lookup_first_match (cs : Counties) (p : Point) (A B : County)
    (rest : List County)
    (hA : Polygon.contains A.poly p = true) (hB : Polygon.contains B.poly p = true) :
    Counties.lookup cs p =
      Option.map County.name (List.find? (fun k => Polygon.contains k.poly p) cs.list) ∧
    Counties.lookup ⟨A :: B :: rest⟩ p = some A.name := by
  refine ⟨lookupList_eq_find cs.list p, ?_⟩
  simp [Counties.lookup, lookupList, County.lookup, hA]

/-- Witness for C1: with two counties over the same square listed in order
A then B, the point (5,5) that both contain resolves to the name of A. -/
theorem counties_lookup_first_match_witness :
    Counties.lookup ⟨[countyA, countyB]⟩ ⟨5, 5⟩ = some "A" :=
  (counties_lookup_first_match ⟨[countyA, countyB]⟩ ⟨5, 5⟩ countyA countyB []
    (by decide) (by decide)).2

/-- C2: batch equals sequential with order preserved. For any index and any
input list of points (respectively records), lookup_all (respectively
lookup_all_records) returns a list of the same length whose i-th entry is
the sequential single-query result on the i-th input, for every i; every
element is resolved. -/
theorem lookup_all_matches_sequential (cs : Counties) (pts : List Point)
    (recs : List Record) :
    (Counties.lookup_all cs pts).length = pts.length ∧
    (∀ i : Nat, (Counties.lookup_all cs pts).get? i =
      (pts.get? i).map (fun p => Counties.lookup cs p)) ∧
    (Counties.lookup_all_records cs recs).length = recs.length ∧
    (∀ i : Nat, (Counties.lookup_all_records cs recs).get? i =
      (recs.get? i).map (fun r => Counties.lookup_record cs r)) := by
  refine ⟨by simp [Counties.lookup_all], fun i => ?_,
    by simp [Counties.lookup_all_records], fun i => ?_⟩
  · simp [Counties.lookup_all, List.get?_map]
  · simp [Counties.lookup_all_records, List.get?_map]

/-- C3: region resolution contract. County::lookup returns the name of the
county exactly when its polygon contains the point, never any other name,
and returns the ordinary optional value none exactly when containment
fails. -/
theorem county_lookup_contract (c : County) (p : Point) :
    (County.lookup c p = some c.name ↔ Polygon.contains c.poly p = true) ∧
    (∀ s : String, County.lookup c p = some s → s = c.name) ∧
    (County.lookup c p = none ↔ Polygon.contains c.poly p = false) := by
  cases h : Polygon.contains c.poly p <;> simp [County.lookup, h]

/-- Witness for C3: the square county contains (5,5), so lookup returns its
name there, and does not contain (15,15), so lookup returns none there. -/
theorem county_lookup_contract_witness :
    County.lookup countyA ⟨5, 5⟩ = some "A" ∧ County.lookup countyA ⟨15, 15⟩ = none :=
  ⟨(county_lookup_contract countyA ⟨5, 5⟩).1.mpr (by decide),
   (county_lookup_contract countyA ⟨15, 15⟩).2.2.mpr (by decide)⟩

/-- C4: record coordinate projection. Record::position returns the point
whose axis0 component is the latitude and whose axis1 component is the
longitude; in particular longitude 11.0531 and latitude 59.2761 project to
the point (59.2761, 11.0531). -/
theorem record_position_latlon (r : Record) :
    Record.position r = Point.mk r.latitude r.longitude ∧
    Record.position ⟨0, 0, 11.0531, 59.2761⟩ = ⟨59.2761, 11.0531⟩ :=
  ⟨rfl, rfl⟩

/-- County construction aborts (the source panics on coordinates[0]) exactly
when the coordinate array of the feature is empty. -/
theorem county_new_none_iff (feat : Feature) :
    County.new feat = none ↔ feat.coordinates = [] := by
  cases feat with
  | mk navn coords => cases coords <;> simp [County.new]

/-- The construction loop over features aborts exactly when some feature has
an empty coordinate array. -/
theorem buildCounties_none_iff (fs : List Feature) :
    buildCounties fs = none ↔ ∃ f ∈ fs, f.coordinates = [] := by
  induction fs with
  | nil => simp [buildCounties]
  | cons f fs ih =>
    simp only [buildCounties]
    cases hf : County.new f with
    | none =>
      have he := (county_new_none_iff f).mp hf
      simp [he]
    | some c0 =>
      have he : ¬ f.coordinates = [] := by
        intro h
        rw [(county_new_none_iff f).mpr h] at hf
        cases hf
      cases hl : buildCounties fs with
      | none => simp [he, ih.mp hl]
      | some l0 =>
        have hne := ih.not.mp (by rw [hl]; intro h; cases h)
        simp [he, hne]

/-- Counterexample for C5: a feature whose only ring has just 2 points is
accepted by County::new, which returns a county built from that ring, and
Counties::new publishes an index containing it. -/
theorem county_new_short_ring_accepted :
    County.new ⟨"X", [[(0, 0), (1, 1)]]⟩ =
      some ⟨"X", ⟨[⟨0, 0⟩, ⟨1, 1⟩], []⟩⟩ ∧
    Counties.new ⟨[⟨"X", [[(0, 0), (1, 1)]]⟩]⟩ =
      some ⟨[⟨"X", ⟨[⟨0, 0⟩, ⟨1, 1⟩], []⟩⟩]⟩ :=
  ⟨rfl, rfl⟩

/-- C5 amended: County::new performs no ring-size validation, so a ring with
fewer than 3 points still yields a county; construction aborts only on an
empty coordinate array (an index panic in the source, modelled as none), and
Counties::new then aborts as a whole, publishing no partial index. -/
theorem county_new_validation (feat : Feature) (json : GeoJson) :
    (County.new feat = none ↔ feat.coordinates = []) ∧
    (Counties.new json = none ↔ ∃ f ∈ json.features, f.coordinates = []) := by
  refine ⟨county_new_none_iff feat, ?_⟩
  rw [← buildCounties_none_iff]
  simp [Counties.new]

/-- Witness for C5 amended: a feature with an empty coordinate array makes
County::new abort. -/
theorem county_new_validation_witness :
    County.new ⟨"Y", []⟩ = none :=
  (county_new_validation ⟨"Y", []⟩ ⟨[]⟩).1.mpr rfl

/-- C6: construction-time coordinate reordering and exterior-ring selection.
When the coordinate array of the feature starts with a ring, County::new
builds the exterior ring from exactly that first ring, mapping each source
pair (c0, c1) given in (axis1, axis0) order to the internal point (c1, c0)
in sequence, with no holes; any further rings are ignored. -/
theorem county_new_first_ring (feat : Feature) (ring : List (ℚ × ℚ))
    (rest : List (List (ℚ × ℚ))) (h : feat.coordinates = ring :: rest) :
    County.new feat =
      some ⟨feat.navn, ⟨ring.map (fun c => Point.mk c.2 c.1), []⟩⟩ := by
  cases feat with
  | mk navn coords =>
    cases h
    rfl

/-- Witness for C6: a feature with two rings keeps only the first, with each
pair swapped into (axis0, axis1) order and the sequence preserved. -/
theorem county_new_first_ring_witness :
    County.new ⟨"Oslo", [[(1, 2), (3, 4), (5, 6)], [(7, 8)]]⟩ =
      some ⟨"Oslo", ⟨[⟨2, 1⟩, ⟨4, 3⟩, ⟨6, 5⟩], []⟩⟩ :=
  county_new_first_ring ⟨"Oslo", [[(1, 2), (3, 4), (5, 6)], [(7, 8)]]⟩
    [(1, 2), (3, 4), (5, 6)] [[(7, 8)]] rfl

/-- C7: record resolution agrees with point resolution. Counties::lookup_record
equals Counties::lookup at the projected point of the record with the testid
paired in: it is some (testid, name) exactly when the point lookup is
some name, and none exactly when the point lookup is none. -/
theorem counties_lookup_record_agrees (cs : Counties) (r : Record) :
    Counties.lookup_record cs r =
      Option.map (fun name => (r.testid, name)) (Counties.lookup cs (Record.position r)) ∧
    (∀ name : String, Counties.lookup_record cs r = some (r.testid, name) ↔
      Counties.lookup cs (Record.position r) = some name) ∧
    (Counties.lookup_record cs r = none ↔
      Counties.lookup cs (Record.position r) = none) := by
  have h : Counties.lookup_record cs r =
      Option.map (fun name => (r.testid, name)) (Counties.lookup cs (Record.position r)) :=
    lookupRecordList_eq cs.list r
  refine ⟨h, fun name => ?_, ?_⟩ <;> rw [h] <;>
    cases Counties.lookup cs (Record.position r) <;> simp

/-- Witness for C7: a record whose projected point (5,5) lies in the square
county resolves to its testid 42 paired with the county name. -/
theorem counties_lookup_record_agrees_witness :
    Counties.lookup_record ⟨[countyA]⟩ ⟨0, 42, 5, 5⟩ = some (42, "A") :=
  ((counties_lookup_record_agrees ⟨[countyA]⟩ ⟨0, 42, 5, 5⟩).2.1 "A").mpr (by decide)

/-- C8: square-polygon containment. For the square with vertices
(0,0), (0,10), (10,10), (10,0) and no holes, the containment test used by
County::lookup is true at (5,5), false at (15,15), and at the on-boundary
point (5,0) it equals the single fixed value true; the test is a pure
function, so the value is identical on every call. -/
theorem square_containment :
    Polygon.contains squarePoly ⟨5, 5⟩ = true ∧
    Polygon.contains squarePoly ⟨15, 15⟩ = false ∧
    Polygon.contains squarePoly ⟨5, 0⟩ = true := by
  decide

/-- Counterexample for C9: a feature with an empty name is accepted by
County::new, producing a county whose name is empty, and Counties::new
publishes an index containing it. -/
theorem county_new_empty_name_accepted :
    County.new ⟨"", [[(0, 0), (0, 10), (10, 10)]]⟩ =
      some ⟨"", ⟨[⟨0, 0⟩, ⟨10, 0⟩, ⟨10, 10⟩], []⟩⟩ ∧
    Counties.new ⟨[⟨"", [[(0, 0), (0, 10), (10, 10)]]⟩]⟩ =
      some ⟨[⟨"", ⟨[⟨0, 0⟩, ⟨10, 0⟩, ⟨10, 10⟩], []⟩⟩]⟩ :=
  ⟨rfl, rfl⟩

/-- C9 amended: County::new copies the name property of the feature verbatim
with no emptiness check, so whenever the coordinate array is nonempty it
produces a county whose name equals the feature name, even when that name is
empty. -/
theorem county_new_name_unchecked (feat : Feature) (ring : List (ℚ × ℚ))
    (rest : List (List (ℚ × ℚ))) (h : feat.coordinates = ring :: rest) :
    ∃ c : County, County.new feat = some c ∧ c.name = feat.navn := by
  cases feat with
  | mk navn coords =>
    cases h
    exact ⟨_, rfl, rfl⟩

/-- Witness for C9 amended: a feature whose name is the empty string yields
a county whose name is the empty string. -/
theorem county_new_name_unchecked_witness :
    ∃ c : County, County.new ⟨"", [[(0, 0)]]⟩ = some c ∧ c.name = "" :=
  county_new_name_unchecked ⟨"", [[(0, 0)]]⟩ [(0, 0)] [] rfl

/-- Every county built by County::new has no hole rings. -/
theorem county_new_holes (feat : Feature) (c : County)
    (h : County.new feat = some c) : c.poly.holes = [] := by
  cases feat with
  | mk navn coords =>
    cases coords with
    | nil => cases h
    | cons r rest =>
      injection h with h
      rw [← h]

/-- Every county in a list built by the construction loop has no holes. -/
theorem buildCounties_holes (fs : List Feature) (l : List County)
    (h : buildCounties fs = some l) : ∀ c ∈ l, c.poly.holes = [] := by
  induction fs generalizing l with
  | nil =>
    injection h with h
    subst h
    intro c hc
    cases hc
  | cons f fs ih =>
    simp only [buildCounties] at h
    cases hf : County.new f with
    | none => rw [hf] at h; cases h
    | some c0 =>
      cases hl : buildCounties fs with
      | none => rw [hf, hl] at h; cases h
      | some l0 =>
        rw [hf, hl] at h
        injection h with h
        subst h
        intro c hc
        cases hc with
        | head => exact county_new_holes f c0 hf
        | tail _ hm => exact ih l0 hl c hm

/-- With no holes the polygon containment test reduces to the exterior
ring test. -/
theorem contains_of_no_holes (poly : Polygon) (hh : poly.holes = [])
    (p : Point) : Polygon.contains poly p = ringContains poly.exterior p := by
  simp [Polygon.contains, hh]

/-- C10: every county produced by County::new has an empty hole list, every
index built by Counties::new contains only such counties, and for those
counties containment is decided by the exterior ring alone, so the
hole-exclusion clause is vacuous for all reachable indexes. -/
theorem counties_no_holes (feat : Feature) (c : County) (json : GeoJson)
    (cs : Counties) (hc : County.new feat = some c)
    (hcs : Counties.new json = some cs) :
    c.poly.holes = [] ∧
    ∀ c2 ∈ cs.list, c2.poly.holes = [] ∧
      ∀ p : Point, Polygon.contains c2.poly p = ringContains c2.poly.exterior p := by
  refine ⟨county_new_holes feat c hc, fun c2 hm => ?_⟩
  have hl : buildCounties json.features = some cs.list := by
    cases hb : buildCounties json.features with
    | none => rw [Counties.new, hb] at hcs; cases hcs
    | some l =>
      rw [Counties.new, hb] at hcs
      injection hcs with hcs
      rw [← hcs]
  have hh := buildCounties_holes json.features cs.list hl c2 hm
  exact ⟨hh, fun p => contains_of_no_holes c2.poly hh p⟩

/-- Witness for C10: a one-feature index is built, and its county has no
holes. -/
theorem counties_no_holes_witness :
    (County.mk "A" ⟨[⟨0, 0⟩], []⟩).poly.holes = [] :=
  (counties_no_holes ⟨"A", [[(0, 0)]]⟩ ⟨"A", ⟨[⟨0, 0⟩], []⟩⟩ ⟨[]⟩ ⟨[]⟩ rfl rfl).1

end RustGeo
